import Mathlib

/-!
Verification development for the `golang-interfaces` repository.

The repository has three Go source files:
- `main.go`: a `User` struct with an `Email` accessor and an `updateEmail`
  pointer-receiver setter.
- `learning/context.go`: `fetchUserData`, a deadline-bound single fetch that
  races a background call to `fetchThirdPartyStuffWhichCanBeSlow` (150ms,
  returning `(666, nil)`) against a 200ms context timeout over an unbuffered
  channel `respch`.
- `learning/scraper.go`: `ConcurrentScraper.Scrape`, a bounded-concurrency
  fan-out/fan-in dispatcher: one goroutine per URL, a buffered channel
  `semaphore` of capacity `NumWorkers` as admission gate, a buffered results
  channel of capacity `len(urls)`, a `sync.WaitGroup` joining all tasks, and a
  final drain of the results channel.

Pure code is embedded as Lean functions.  The concurrent parts are embedded as
small-step transition systems: a state records where each goroutine is in its
straight-line code, and a step relation contains one constructor per atomic
action (channel send/receive, timer expiry, function return).  Real-time
durations are abstracted into nondeterministic interleaving of the timer event
with the other events, which over-approximates every schedule the Go runtime
can produce.
-/

namespace MainGo

/-- The `User` struct of `main.go`.  `age` is a `uint8`; it is only ever stored
and copied (no arithmetic), so `Nat` is a faithful carrier here. -/
structure User where
  name : String
  age : Nat
  email : String
deriving DecidableEq

/-- Method `func (u User) Email() string { return u.email }`. -/
def User.Email (u : User) : String :=
  u.email

/-- Method `func (u *User) updateEmail(email string) { u.email = email }`.
The pointer-receiver mutation is embedded as returning the updated value. -/
def User.updateEmail (u : User) (email : String) : User :=
  { u with email := email }

/-- Free function `func Email(u *User) string { return u.email }`. -/
def Email (u : User) : String :=
  u.email

end MainGo

namespace Learning

/-- A Go `error` value: `none` is `nil`, `some msg` a non-nil error. -/
abbrev GoErr := Option String

/-- The error message built in the `ctx.Done()` branch of `fetchUserData`. -/
def timeoutMsg : String := "fetching data from third party took too long"

/-- Outcome of `fetchThirdPartyStuffWhichCanBeSlow`: it sleeps 150ms and then
returns `(666, nil)`. -/
def fetchThirdPartyStuffWhichCanBeSlow : Int × GoErr := (666, none)

/-- Sleep duration, in milliseconds, inside `fetchThirdPartyStuffWhichCanBeSlow`. -/
def fetchThirdPartyDelayMs : Nat := 150

/-- The budget `fetchUserData` installs with `context.WithTimeout`, in ms. -/
def fetchTimeoutMs : Nat := 200

/-- Capacity of `respch := make(chan Response)` in `fetchUserData`: unbuffered. -/
def respchCapacity : Nat := 0

/-- The `Response` struct of `context.go`. -/
structure Response where
  value : Int
  err : GoErr
deriving DecidableEq

/-- Function-level summary of `fetchUserData`.  Its body is a `select` racing
the background fetch against the 200ms context deadline; which case fires
first is timing nondeterminism, made explicit as the `fetchFirst` argument.
If the fetch wins, its value and error are returned; if the deadline wins, the
function returns `0` and the timeout error.  The `userID` parameter is bound
by the signature but never read in the body (the third-party call takes no
arguments). -/
def fetchUserData (userID : Int) (fetchFirst : Bool) : Int × GoErr :=
  if fetchFirst then fetchThirdPartyStuffWhichCanBeSlow
  else (0, some timeoutMsg)

/-- Position of the background goroutine spawned by `fetchUserData`:
still inside the third-party call, blocked on the unbuffered `respch` send
with a computed `Response`, or past the send. -/
inductive GorPhase where
  | fetching
  | sendPending (resp : Response)
  | sentResp
deriving DecidableEq

/-- Position of the `fetchUserData` caller itself: inside the `select`, or
already returned with a `(value, error)` pair. -/
inductive MainPhase where
  | selecting
  | returnedMain (value : Int) (err : GoErr)
deriving DecidableEq

/-- Joint state of one `fetchUserData` call: the background goroutine, the
selecting caller, and whether the 200ms context deadline has fired. -/
structure FetchState where
  gor : GorPhase
  mainPh : MainPhase
  ctxDone : Bool
deriving DecidableEq

/-- Atomic events of one `fetchUserData` call, parametrised by the outcome
`slow` of the third-party call (in the source, `(666, nil)`).
`respch` is unbuffered, so the goroutine's send completes only by rendezvous
with the `select`'s receive case; the `ctx.Done()` case needs the timer to
have fired.  No constructor lets the goroutine finish its send once the caller
has returned: that is exactly what `make(chan Response)` with no later
receiver means. -/
inductive FetchStep (slow : Int × GoErr) : FetchState → FetchState → Prop where
  | timerFires (s : FetchState) (h : s.ctxDone = false) :
      FetchStep slow s { s with ctxDone := true }
  | fetchCompletes (s : FetchState) (h : s.gor = GorPhase.fetching) :
      FetchStep slow s { s with gor := GorPhase.sendPending { value := slow.1, err := slow.2 } }
  | rendezvous (s : FetchState) (resp : Response)
      (hg : s.gor = GorPhase.sendPending resp) (hm : s.mainPh = MainPhase.selecting) :
      FetchStep slow s
        { s with gor := GorPhase.sentResp,
                 mainPh := MainPhase.returnedMain resp.value resp.err }
  | timeoutReturn (s : FetchState) (hm : s.mainPh = MainPhase.selecting)
      (hc : s.ctxDone = true) :
      FetchStep slow s { s with mainPh := MainPhase.returnedMain 0 (some timeoutMsg) }

/-- State at entry of `fetchUserData`: goroutine launched into the third-party
call, caller entering the `select`, timer pending. -/
def fetchInit : FetchState :=
  { gor := GorPhase.fetching, mainPh := MainPhase.selecting, ctxDone := false }

/-- Reachability of a `fetchUserData` state from entry. -/
abbrev FetchReachable (slow : Int × GoErr) (s : FetchState) : Prop :=
  Relation.ReflTransGen (FetchStep slow) fetchInit s

/-- Concrete schedule: the 200ms deadline fires while the third-party call is
still running, and the caller takes the `ctx.Done()` branch. -/
def fTimeout : FetchState :=
  { gor := GorPhase.fetching,
    mainPh := MainPhase.returnedMain 0 (some timeoutMsg), ctxDone := true }

/-- Continuation of the `fTimeout` schedule: the abandoned goroutine finally
computes its `Response` and arrives at the unbuffered `respch` send, with the
caller long gone. -/
def fLeak : FetchState :=
  { gor := GorPhase.sendPending { value := 666, err := none },
    mainPh := MainPhase.returnedMain 0 (some timeoutMsg), ctxDone := true }

/-- Bytes of a fetched page; `[]byte` is embedded as a list of byte values. -/
abbrev Bytes := List Nat

/-- The `Scraper` interface: one fetch per URL.  Its only observable input
besides the URL is the cancellation state of the context it is handed, so a
concrete implementation is a function of the URL and of whether the context
was already cancelled when the fetch ran. -/
abbrev ScrapeFn := String → Bool → Bytes × GoErr

/-- The `Result` struct of `scraper.go`. -/
structure Result where
  URL : String
  Data : Bytes
  Err : GoErr
deriving DecidableEq

/-- The `Result` value that `Worker` builds and sends for a URL: it calls
`scraper.Scrape(ctx, url)` and packages URL, data and error. -/
def mkResult (scraper : ScrapeFn) (key : String) (c : Bool) : Result :=
  { URL := key, Data := (scraper key c).1, Err := (scraper key c).2 }

/-- The `ConcurrentScraper` struct. -/
structure ConcurrentScraper where
  Scraper : ScrapeFn
  NumWorkers : Nat

/-- `NewConcurrentScraper` stores its two arguments and nothing else; in
particular it performs no validation of `numWorkers`.  (`NumWorkers` is a Go
`int`; a negative value would make `make(chan struct\x7b\x7d, c.NumWorkers)`
panic at the start of `Scrape`, so the machine below models the non-negative
capacities as `Nat`.) -/
def NewConcurrentScraper (scraper : ScrapeFn) (numWorkers : Nat) : ConcurrentScraper :=
  { Scraper := scraper, NumWorkers := numWorkers }

/-- Position of one spawned goroutine of `ConcurrentScraper.Scrape` in its
body: blocked on the `semaphore` send (admission gate), inside
`scraper.Scrape` via `Worker`, or finished (result sent, slot released,
`wg.Done` run). -/
inductive TaskPhase where
  | waitingAdmission
  | running
  | done
deriving DecidableEq

/-- One spawned goroutine: its URL, its position, and whether it has invoked
the executor (`scraper.Scrape`) at least once. -/
structure Task where
  key : String
  phase : TaskPhase
  calledExec : Bool
deriving DecidableEq

/-- Position of the dispatcher goroutine running `Scrape` itself: still in the
spawn loop, blocked in `wg.Wait()`, or past it (results drained, returned). -/
inductive DispPhase where
  | spawning
  | waiting
  | returned
deriving DecidableEq

/-- Joint state of one `ConcurrentScraper.Scrape` call.  `tasks` has one entry
per submitted URL in submission order; goroutine `i` exists once `i < spawned`.
`results` is the contents of the buffered results channel in send order (its
capacity is `len(urls)` and at most one send per task occurs, so a send never
blocks and the buffer is simply a list).  `ctxDone` records whether the
caller-supplied context has been cancelled. -/
structure ScrapeState where
  tasks : List Task
  spawned : Nat
  results : List Result
  ctxDone : Bool
  dispatcher : DispPhase
deriving DecidableEq

/-- Number of tasks currently inside the executor. -/
def countRunning : List Task → Nat
  | [] => 0
  | t :: ts => (if t.phase = TaskPhase.running then 1 else 0) + countRunning ts

/-- Number of finished tasks whose URL is `u`. -/
def countDoneKey : List Task → String → Nat
  | [], _ => 0
  | t :: ts, u =>
      (if t.phase = TaskPhase.done ∧ t.key = u then 1 else 0) + countDoneKey ts u

/-- Atomic events of one `ConcurrentScraper.Scrape` call with admission-gate
capacity `limit` (the `NumWorkers` field) and executor `scraper`:
- `spawn`: the dispatcher loop runs `wg.Add(1)` and launches goroutine number
  `spawned`;
- `beginWait`: the loop is exhausted and the dispatcher enters `wg.Wait()`;
- `cancel`: the caller's context is cancelled (deadline expiry), a one-shot
  broadcast;
- `acquire`: a spawned goroutine still at the gate completes
  `semaphore <- struct\x7b\x7d\x7b\x7d` — possible only while fewer than
  `limit` slots are taken — and immediately calls the executor through
  `Worker`.  Note there is no alternative constructor for a waiting task to
  observe `ctxDone`: the source has no `select` on the context at the gate and
  `Worker` calls `scraper.Scrape` unconditionally;
- `finish`: the executor returns (its outcome may depend on the current
  cancellation state), `Worker` sends the `Result` into the buffered results
  channel, and the deferred slot release and `wg.Done()` run;
- `ret`: with every task finished, `wg.Wait()` returns; `close(results)` and
  the drain loop then copy the buffered results, in order, into the returned
  slice, so the returned slice is exactly `results`. -/
inductive Step (limit : Nat) (scraper : ScrapeFn) : ScrapeState → ScrapeState → Prop where
  | spawn (s : ScrapeState) (h1 : s.dispatcher = DispPhase.spawning)
      (h2 : s.spawned < s.tasks.length) :
      Step limit scraper s { s with spawned := s.spawned + 1 }
  | beginWait (s : ScrapeState) (h1 : s.dispatcher = DispPhase.spawning)
      (h2 : s.spawned = s.tasks.length) :
      Step limit scraper s { s with dispatcher := DispPhase.waiting }
  | cancel (s : ScrapeState) (h : s.ctxDone = false) :
      Step limit scraper s { s with ctxDone := true }
  | acquire (s : ScrapeState) (i : Nat) (hlen : i < s.tasks.length)
      (hsp : i < s.spawned)
      (hph : (s.tasks.get ⟨i, hlen⟩).phase = TaskPhase.waitingAdmission)
      (hsem : countRunning s.tasks < limit) :
      Step limit scraper s
        { s with tasks := s.tasks.set i ({ key := (s.tasks.get ⟨i, hlen⟩).key, phase := TaskPhase.running, calledExec := true }) }
  | finish (s : ScrapeState) (i : Nat) (hlen : i < s.tasks.length)
      (hph : (s.tasks.get ⟨i, hlen⟩).phase = TaskPhase.running) :
      Step limit scraper s
        { s with
            tasks := s.tasks.set i ({ key := (s.tasks.get ⟨i, hlen⟩).key, phase := TaskPhase.done, calledExec := (s.tasks.get ⟨i, hlen⟩).calledExec }),
            results := s.results ++ [mkResult scraper (s.tasks.get ⟨i, hlen⟩).key s.ctxDone] }
  | ret (s : ScrapeState) (h1 : s.dispatcher = DispPhase.waiting)
      (h2 : ∀ t ∈ s.tasks, t.phase = TaskPhase.done) :
      Step limit scraper s { s with dispatcher := DispPhase.returned }

/-- State at entry of `Scrape`: no goroutine launched yet, empty results
buffer, context live, dispatcher in its spawn loop. -/
def initState (keys : List String) : ScrapeState :=
  { tasks := keys.map (fun k =>
      { key := k, phase := TaskPhase.waitingAdmission, calledExec := false }),
    spawned := 0, results := [], ctxDone := false, dispatcher := DispPhase.spawning }

/-- Reachability of a `Scrape` state from entry with the given gate capacity,
executor and URL list. -/
abbrev Reachable (limit : Nat) (scraper : ScrapeFn) (keys : List String)
    (s : ScrapeState) : Prop :=
  Relation.ReflTransGen (Step limit scraper) (initState keys) s

/-- Executable over-approximation of step enabledness: whenever some `Step`
applies to `s`, `canStep limit s = true`.  Hence a state with
`canStep limit s = false` is permanently stuck. -/
def canStep (limit : Nat) (s : ScrapeState) : Bool :=
  (s.dispatcher == DispPhase.spawning) ||
  (!s.ctxDone) ||
  ((s.tasks.any (fun t => t.phase == TaskPhase.waitingAdmission))
      && decide (countRunning s.tasks < limit)) ||
  (s.tasks.any (fun t => t.phase == TaskPhase.running)) ||
  ((s.dispatcher == DispPhase.waiting) && s.tasks.all (fun t => t.phase == TaskPhase.done))

/-- Boolean form of "a task at the admission gate has not entered the
executor". -/
def waitingOutsideExec (t : Task) : Bool :=
  !(t.phase == TaskPhase.waitingAdmission) || !t.calledExec

/-- Boolean form of "this task never invoked the executor". -/
def neverCalled (t : Task) : Bool :=
  !t.calledExec

/-- A concrete executor used in concrete schedules: every fetch succeeds with
body `[9]`, whatever the context state. -/
def cs0 : ScrapeFn := fun _ _ => ([9], none)

/-- A concrete executor that fails on URL `a` (as `SimpleScraper` does on a
non-200 status) and succeeds on every other URL. -/
def csErr : ScrapeFn := fun k _ =>
  if k = "a" then ([], some "bad status code: 500") else ([1], none)

/-- Schedule states for a one-URL batch (`keys = [a]`): after `wg.Add`/`go`. -/
def t1 : ScrapeState :=
  { tasks := [{ key := "a", phase := TaskPhase.waitingAdmission, calledExec := false }],
    spawned := 1, results := [], ctxDone := false, dispatcher := DispPhase.spawning }

/-- One-URL batch: dispatcher has entered `wg.Wait()`. -/
def t2 : ScrapeState :=
  { t1 with dispatcher := DispPhase.waiting }

/-- One-URL batch: the context deadline has fired while the single task is
still blocked at the admission gate and has never called the executor. -/
def t3 : ScrapeState :=
  { t2 with ctxDone := true }

/-- One-URL batch, after `t3`: the task acquired a slot and entered the
executor anyway, the context cancellation notwithstanding. -/
def t4 : ScrapeState :=
  { tasks := [{ key := "a", phase := TaskPhase.running, calledExec := true }],
    spawned := 1, results := [], ctxDone := true, dispatcher := DispPhase.waiting }

/-- One-URL batch: the executor returned and the result was collected. -/
def t5 : ScrapeState :=
  { tasks := [{ key := "a", phase := TaskPhase.done, calledExec := true }],
    spawned := 1, results := [{ URL := "a", Data := [9], Err := none }],
    ctxDone := true, dispatcher := DispPhase.waiting }

/-- One-URL batch: `wg.Wait()` returned and `Scrape` completed. -/
def t6 : ScrapeState :=
  { t5 with dispatcher := DispPhase.returned }

/-- Two-URL batch (`keys = [a, b]`, gate capacity 1) with executor `cs0`:
states of one complete schedule. -/
def a1 : ScrapeState :=
  { initState ["a", "b"] with spawned := 1 }

/-- Two-URL batch: both goroutines launched. -/
def a2 : ScrapeState :=
  { initState ["a", "b"] with spawned := 2 }

/-- Two-URL batch: dispatcher inside `wg.Wait()`. -/
def a3 : ScrapeState :=
  { a2 with dispatcher := DispPhase.waiting }

/-- Two-URL batch: task 0 admitted and inside the executor, task 1 still at
the gate — the single slot is taken. -/
def a4 : ScrapeState :=
  { tasks := [{ key := "a", phase := TaskPhase.running, calledExec := true },
              { key := "b", phase := TaskPhase.waitingAdmission, calledExec := false }],
    spawned := 2, results := [], ctxDone := false, dispatcher := DispPhase.waiting }

/-- Two-URL batch: task 0 finished, slot free again. -/
def a5 : ScrapeState :=
  { tasks := [{ key := "a", phase := TaskPhase.done, calledExec := true },
              { key := "b", phase := TaskPhase.waitingAdmission, calledExec := false }],
    spawned := 2, results := [{ URL := "a", Data := [9], Err := none }],
    ctxDone := false, dispatcher := DispPhase.waiting }

/-- Two-URL batch: task 1 admitted. -/
def a6 : ScrapeState :=
  { tasks := [{ key := "a", phase := TaskPhase.done, calledExec := true },
              { key := "b", phase := TaskPhase.running, calledExec := true }],
    spawned := 2, results := [{ URL := "a", Data := [9], Err := none }],
    ctxDone := false, dispatcher := DispPhase.waiting }

/-- Two-URL batch: task 1 finished. -/
def a7 : ScrapeState :=
  { tasks := [{ key := "a", phase := TaskPhase.done, calledExec := true },
              { key := "b", phase := TaskPhase.done, calledExec := true }],
    spawned := 2,
    results := [{ URL := "a", Data := [9], Err := none },
                { URL := "b", Data := [9], Err := none }],
    ctxDone := false, dispatcher := DispPhase.waiting }

/-- Two-URL batch: `Scrape` returned with both results collected. -/
def a8 : ScrapeState :=
  { a7 with dispatcher := DispPhase.returned }

/-- Two-URL batch against `csErr`: task 0 finished with an error outcome
(the schedule passes through `a4`, whose results buffer is still empty). -/
def e5 : ScrapeState :=
  { tasks := [{ key := "a", phase := TaskPhase.done, calledExec := true },
              { key := "b", phase := TaskPhase.waitingAdmission, calledExec := false }],
    spawned := 2, results := [{ URL := "a", Data := [], Err := some "bad status code: 500" }],
    ctxDone := false, dispatcher := DispPhase.waiting }

/-- Two-URL batch against `csErr`: task 1 admitted after the failure. -/
def e6 : ScrapeState :=
  { e5 with tasks := [{ key := "a", phase := TaskPhase.done, calledExec := true },
                      { key := "b", phase := TaskPhase.running, calledExec := true }] }

/-- Two-URL batch against `csErr`: task 1 finished with a success outcome. -/
def e7 : ScrapeState :=
  { tasks := [{ key := "a", phase := TaskPhase.done, calledExec := true },
              { key := "b", phase := TaskPhase.done, calledExec := true }],
    spawned := 2,
    results := [{ URL := "a", Data := [], Err := some "bad status code: 500" },
                { URL := "b", Data := [1], Err := none }],
    ctxDone := false, dispatcher := DispPhase.waiting }

/-- Two-URL batch against `csErr`: `Scrape` returned with both results. -/
def e8 : ScrapeState :=
  { e7 with dispatcher := DispPhase.returned }

/-- The state an empty batch returns in: no tasks, empty results. -/
def emptyFinal : ScrapeState :=
  { tasks := [], spawned := 0, results := [], ctxDone := false,
    dispatcher := DispPhase.returned }

/-- The inductive invariant of one `Scrape` call: task keys are fixed, each
finished task has contributed exactly one buffered result with its URL, at
most `limit` tasks are inside the executor, the call returns only with every
task finished, a task has invoked the executor exactly when it is past the
admission gate, every buffered result is an output of the executor on its own
URL, and with gate capacity `0` no task ever passes the gate. -/
structure Inv (limit : Nat) (scraper : ScrapeFn) (keys : List String)
    (s : ScrapeState) : Prop where
  keys_eq : s.tasks.map Task.key = keys
  res_count : ∀ u : String, (s.results.map Result.URL).count u = countDoneKey s.tasks u
  run_le : countRunning s.tasks ≤ limit
  ret_done : s.dispatcher = DispPhase.returned → ∀ t ∈ s.tasks, t.phase = TaskPhase.done
  called_iff : ∀ t ∈ s.tasks, (t.calledExec = true ↔ t.phase ≠ TaskPhase.waitingAdmission)
  res_src : ∀ r ∈ s.results,
    ∃ b : Bool, r.Data = (scraper r.URL b).1 ∧ r.Err = (scraper r.URL b).2
  zero_wa : limit = 0 → ∀ t ∈ s.tasks, t.phase = TaskPhase.waitingAdmission

/-- The inductive invariant of one `fetchUserData` call: a pending `Response`
carries exactly the third-party outcome, and a returned caller either returned
that outcome (via the rendezvous) or returned the zero value with the timeout
error after the deadline fired. -/
structure FInv (slow : Int × GoErr) (s : FetchState) : Prop where
  sp_eq : ∀ resp : Response, s.gor = GorPhase.sendPending resp →
    resp.value = slow.1 ∧ resp.err = slow.2
  main_ret : ∀ (v : Int) (e : GoErr), s.mainPh = MainPhase.returnedMain v e →
    (v, e) = slow ∨ (v = 0 ∧ e = some timeoutMsg ∧ s.ctxDone = true)

lemma countRunning_set (ts : List Task) (i : Nat) (h : i < ts.length) (t' : Task) :
    countRunning (ts.set i t')
      + (if (ts.get ⟨i, h⟩).phase = TaskPhase.running then 1 else 0)
      = countRunning ts + (if t'.phase = TaskPhase.running then 1 else 0) := by
  induction ts generalizing i with
  | nil => exact absurd h (Nat.not_lt_zero i)
  | cons a tl ih =>
    cases i with
    | zero =>
      simp only [List.set, countRunning, List.get]
      omega
    | succ n =>
      have h2 : n < tl.length := Nat.lt_of_succ_lt_succ h
      have ih2 := ih n h2
      simp only [List.set, countRunning, List.get]
      omega

lemma countDoneKey_set (ts : List Task) (i : Nat) (h : i < ts.length) (t' : Task)
    (u : String) :
    countDoneKey (ts.set i t') u
      + (if (ts.get ⟨i, h⟩).phase = TaskPhase.done ∧ (ts.get ⟨i, h⟩).key = u then 1 else 0)
      = countDoneKey ts u + (if t'.phase = TaskPhase.done ∧ t'.key = u then 1 else 0) := by
  induction ts generalizing i with
  | nil => exact absurd h (Nat.not_lt_zero i)
  | cons a tl ih =>
    cases i with
    | zero =>
      simp only [List.set, countDoneKey, List.get]
      omega
    | succ n =>
      have h2 : n < tl.length := Nat.lt_of_succ_lt_succ h
      have ih2 := ih n h2
      simp only [List.set, countDoneKey, List.get]
      omega

lemma map_key_set (ts : List Task) (i : Nat) (h : i < ts.length) (t' : Task)
    (hk : t'.key = (ts.get ⟨i, h⟩).key) :
    (ts.set i t').map Task.key = ts.map Task.key := by
  induction ts generalizing i with
  | nil => exact absurd h (Nat.not_lt_zero i)
  | cons a tl ih =>
    cases i with
    | zero =>
      simp only [List.set, List.map, List.get] at hk ⊢
      rw [hk]
    | succ n =>
      have h2 : n < tl.length := Nat.lt_of_succ_lt_succ h
      simp only [List.set, List.map, List.get] at hk ⊢
      rw [ih n h2 hk]

lemma countDoneKey_all_done (ts : List Task)
    (hall : ∀ t ∈ ts, t.phase = TaskPhase.done) (u : String) :
    countDoneKey ts u = (ts.map Task.key).count u := by
  induction ts with
  | nil => simp [countDoneKey]
  | cons a tl ih =>
    have ha : a.phase = TaskPhase.done := hall a (List.mem_cons_self a tl)
    have htl : ∀ t ∈ tl, t.phase = TaskPhase.done :=
      fun t ht => hall t (List.mem_cons_of_mem a ht)
    simp only [countDoneKey, List.map, List.count_cons, ih htl, ha]
    by_cases hk : a.key = u
    · simp [hk, Nat.add_comm]
    · simp [hk, fun hu : u = a.key => hk hu.symm]

lemma countRunning_eq_zero (ts : List Task)
    (h : ∀ t ∈ ts, t.phase ≠ TaskPhase.running) : countRunning ts = 0 := by
  induction ts with
  | nil => rfl
  | cons a tl ih =>
    have ha : a.phase ≠ TaskPhase.running := h a (List.mem_cons_self a tl)
    simp [countRunning, ha, ih (fun t ht => h t (List.mem_cons_of_mem a ht))]

lemma countDoneKey_eq_zero (ts : List Task)
    (h : ∀ t ∈ ts, t.phase ≠ TaskPhase.done) (u : String) : countDoneKey ts u = 0 := by
  induction ts with
  | nil => rfl
  | cons a tl ih =>
    have ha : a.phase ≠ TaskPhase.done := h a (List.mem_cons_self a tl)
    simp [countDoneKey, ha, ih (fun t ht => h t (List.mem_cons_of_mem a ht))]

lemma results_nil_of_counts (l : List Result)
    (h : ∀ u : String, (l.map Result.URL).count u = 0) : l = [] := by
  cases l with
  | nil => rfl
  | cons r tl =>
    have hr := h r.URL
    simp [List.count_cons] at hr

lemma init_tasks_mem (keys : List String) (t : Task)
    (ht : t ∈ (initState keys).tasks) :
    t.phase = TaskPhase.waitingAdmission ∧ t.calledExec = false := by
  simp only [initState, List.mem_map] at ht
  obtain ⟨k, _, rfl⟩ := ht
  exact ⟨rfl, rfl⟩

lemma inv_init (limit : Nat) (scraper : ScrapeFn) (keys : List String) :
    Inv limit scraper keys (initState keys) := by
  refine ⟨?_, ?_, ?_, ?_, ?_, ?_, ?_⟩
  · simp [initState, List.map_map, Function.comp_def]
  · intro u
    have h0 : countDoneKey (initState keys).tasks u = 0 :=
      countDoneKey_eq_zero _ (fun t ht => by
        rw [(init_tasks_mem keys t ht).1]; exact fun hc => by cases hc) u
    simpa [initState] using h0.symm
  · have h0 : countRunning (initState keys).tasks = 0 :=
      countRunning_eq_zero _ (fun t ht => by
        rw [(init_tasks_mem keys t ht).1]; exact fun hc => by cases hc)
    simp [h0]
  · intro hr
    exact absurd hr (by simp [initState])
  · intro t ht
    have := init_tasks_mem keys t ht
    rw [this.1, this.2]
    simp
  · intro r hr
    exact absurd hr (by simp [initState])
  · intro _ t ht
    exact (init_tasks_mem keys t ht).1

lemma countRunning_set_enter (ts : List Task) (i : Nat) (h : i < ts.length) (t' : Task)
    (h1 : (ts.get ⟨i, h⟩).phase ≠ TaskPhase.running) (h2 : t'.phase = TaskPhase.running) :
    countRunning (ts.set i t') = countRunning ts + 1 := by
  have hg := countRunning_set ts i h t'
  rw [if_neg h1, if_pos h2] at hg
  omega

lemma countRunning_set_leave (ts : List Task) (i : Nat) (h : i < ts.length) (t' : Task)
    (h1 : (ts.get ⟨i, h⟩).phase = TaskPhase.running) (h2 : t'.phase ≠ TaskPhase.running) :
    countRunning (ts.set i t') + 1 = countRunning ts := by
  have hg := countRunning_set ts i h t'
  rw [if_pos h1, if_neg h2] at hg
  omega

lemma countDoneKey_set_still (ts : List Task) (i : Nat) (h : i < ts.length) (t' : Task)
    (u : String) (h1 : (ts.get ⟨i, h⟩).phase ≠ TaskPhase.done)
    (h2 : t'.phase ≠ TaskPhase.done) :
    countDoneKey (ts.set i t') u = countDoneKey ts u := by
  have hg := countDoneKey_set ts i h t' u
  rw [if_neg (fun hc => h1 hc.1), if_neg (fun hc => h2 hc.1)] at hg
  omega

lemma countDoneKey_set_done (ts : List Task) (i : Nat) (h : i < ts.length) (t' : Task)
    (u : String) (h1 : (ts.get ⟨i, h⟩).phase ≠ TaskPhase.done)
    (h2 : t'.phase = TaskPhase.done) (k : String) (hk : t'.key = k) :
    countDoneKey (ts.set i t') u = countDoneKey ts u + (if k = u then 1 else 0) := by
  have hg := countDoneKey_set ts i h t' u
  rw [if_neg (fun hc => h1 hc.1)] at hg
  by_cases hku : k = u
  · rw [if_pos ⟨h2, hk.trans hku⟩] at hg
    rw [if_pos hku]
    omega
  · rw [if_neg (fun hc => hku (hk.symm.trans hc.2))] at hg
    rw [if_neg hku]
    omega

lemma count_map_single (r : Result) (u : String) :
    (List.map Result.URL [r]).count u = if r.URL = u then 1 else 0 := by
  by_cases h : r.URL = u
  · simp [h]
  · have hne : u ≠ r.URL := fun hu => h hu.symm
    simp [List.count_cons, hne, h]

lemma inv_step {limit : Nat} {scraper : ScrapeFn} {keys : List String}
    {s s1 : ScrapeState} (hs : Step limit scraper s s1)
    (hi : Inv limit scraper keys s) : Inv limit scraper keys s1 := by
  cases hs with
  | spawn h1 h2 =>
    exact ⟨hi.keys_eq, hi.res_count, hi.run_le,
      fun hr => DispPhase.noConfusion (h1.symm.trans hr),
      hi.called_iff, hi.res_src, hi.zero_wa⟩
  | beginWait h1 h2 =>
    exact ⟨hi.keys_eq, hi.res_count, hi.run_le,
      fun hr => DispPhase.noConfusion (hr : DispPhase.waiting = DispPhase.returned),
      hi.called_iff, hi.res_src, hi.zero_wa⟩
  | cancel h =>
    exact ⟨hi.keys_eq, hi.res_count, hi.run_le, hi.ret_done,
      hi.called_iff, hi.res_src, hi.zero_wa⟩
  | acquire i hlen hsp hph hsem =>
    have hmem : s.tasks.get ⟨i, hlen⟩ ∈ s.tasks := List.get_mem s.tasks i hlen
    refine ⟨?_, ?_, ?_, ?_, ?_, ?_, ?_⟩
    · exact (map_key_set s.tasks i hlen
        ({ key := (s.tasks.get ⟨i, hlen⟩).key, phase := TaskPhase.running,
           calledExec := true }) rfl).trans hi.keys_eq
    · intro u
      have hcd := countDoneKey_set_still s.tasks i hlen
        ({ key := (s.tasks.get ⟨i, hlen⟩).key, phase := TaskPhase.running,
           calledExec := true }) u
        (by rw [hph]; exact fun hc => by cases hc) (fun hc => by cases hc)
      dsimp only
      rw [hcd]
      exact hi.res_count u
    · have hcr := countRunning_set_enter s.tasks i hlen
        ({ key := (s.tasks.get ⟨i, hlen⟩).key, phase := TaskPhase.running,
           calledExec := true })
        (by rw [hph]; exact fun hc => by cases hc) rfl
      dsimp only
      rw [hcr]
      omega
    · intro hr
      have hall := hi.ret_done hr
      exact absurd ((hall _ hmem).symm.trans hph) (by decide)
    · intro t ht
      rcases List.mem_or_eq_of_mem_set ht with hmem2 | rfl
      · exact hi.called_iff t hmem2
      · simp
    · exact hi.res_src
    · intro h0
      exact absurd (h0 ▸ hsem) (Nat.not_lt_zero _)
  | finish i hlen hph =>
    have hmem : s.tasks.get ⟨i, hlen⟩ ∈ s.tasks := List.get_mem s.tasks i hlen
    refine ⟨?_, ?_, ?_, ?_, ?_, ?_, ?_⟩
    · exact (map_key_set s.tasks i hlen
        ({ key := (s.tasks.get ⟨i, hlen⟩).key, phase := TaskPhase.done,
           calledExec := (s.tasks.get ⟨i, hlen⟩).calledExec }) rfl).trans hi.keys_eq
    · intro u
      have hcd := countDoneKey_set_done s.tasks i hlen
        ({ key := (s.tasks.get ⟨i, hlen⟩).key, phase := TaskPhase.done,
           calledExec := (s.tasks.get ⟨i, hlen⟩).calledExec }) u
        (by rw [hph]; exact fun hc => by cases hc) rfl
        ((s.tasks.get ⟨i, hlen⟩).key) rfl
      have hrc := hi.res_count u
      dsimp only
      rw [List.map_append, List.count_append, hcd, count_map_single]
      rw [show (mkResult scraper (s.tasks.get ⟨i, hlen⟩).key s.ctxDone).URL
            = (s.tasks.get ⟨i, hlen⟩).key from rfl]
      omega
    · have hcr := countRunning_set_leave s.tasks i hlen
        ({ key := (s.tasks.get ⟨i, hlen⟩).key, phase := TaskPhase.done,
           calledExec := (s.tasks.get ⟨i, hlen⟩).calledExec })
        hph (fun hc => by cases hc)
      have hle := hi.run_le
      dsimp only
      omega
    · intro hr
      have hall := hi.ret_done hr
      exact absurd ((hall _ hmem).symm.trans hph) (by decide)
    · intro t ht
      rcases List.mem_or_eq_of_mem_set ht with hmem2 | rfl
      · exact hi.called_iff t hmem2
      · have hne : (s.tasks.get ⟨i, hlen⟩).phase ≠ TaskPhase.waitingAdmission := by
          rw [hph]; exact fun hx => by cases hx
        have hc := (hi.called_iff _ hmem).2 hne
        exact ⟨fun _ => fun hx =>
            TaskPhase.noConfusion (hx : TaskPhase.done = TaskPhase.waitingAdmission),
          fun _ => hc⟩
    · intro r hr
      dsimp only at hr
      rcases List.mem_append.mp hr with hr1 | hr1
      · exact hi.res_src r hr1
      · rcases List.mem_singleton.mp hr1 with rfl
        exact ⟨s.ctxDone, rfl, rfl⟩
    · intro h0
      exact absurd ((hi.zero_wa h0 _ hmem).symm.trans hph) (by decide)
  | ret h1 h2 =>
    exact ⟨hi.keys_eq, hi.res_count, hi.run_le, fun _ => h2,
      hi.called_iff, hi.res_src, hi.zero_wa⟩

lemma reachable_inv {limit : Nat} {scraper : ScrapeFn} {keys : List String}
    {s : ScrapeState} (h : Reachable limit scraper keys s) :
    Inv limit scraper keys s := by
  induction h with
  | refl => exact inv_init limit scraper keys
  | tail _ hstep ih => exact inv_step hstep ih

lemma returned_results_perm {limit : Nat} {scraper : ScrapeFn} {keys : List String}
    {s : ScrapeState} (hi : Inv limit scraper keys s)
    (hret : s.dispatcher = DispPhase.returned) :
    (s.results.map Result.URL).Perm keys := by
  have hall := hi.ret_done hret
  rw [List.perm_iff_count]
  intro u
  rw [hi.res_count u, countDoneKey_all_done s.tasks hall u, hi.keys_eq]

lemma finv_init (slow : Int × GoErr) : FInv slow fetchInit := by
  refine ⟨?_, ?_⟩
  · intro resp h
    cases h
  · intro v e h
    cases h

lemma finv_step {slow : Int × GoErr} {s s1 : FetchState}
    (hs : FetchStep slow s s1) (hi : FInv slow s) : FInv slow s1 := by
  cases hs with
  | timerFires h =>
    refine ⟨hi.sp_eq, ?_⟩
    intro v e hm
    rcases hi.main_ret v e hm with h1 | h1
    · exact Or.inl h1
    · exact Or.inr ⟨h1.1, h1.2.1, rfl⟩
  | fetchCompletes h =>
    refine ⟨?_, hi.main_ret⟩
    intro resp hg
    have hg2 : GorPhase.sendPending { value := slow.1, err := slow.2 }
        = GorPhase.sendPending resp := hg
    injection hg2 with h2
    subst h2
    exact ⟨rfl, rfl⟩
  | rendezvous resp hg hm =>
    refine ⟨?_, ?_⟩
    · intro r2 hg2
      cases hg2
    · intro v e hm2
      have hm3 : MainPhase.returnedMain resp.value resp.err
          = MainPhase.returnedMain v e := hm2
      injection hm3 with h1 h2
      subst h1
      subst h2
      left
      have hsp := hi.sp_eq resp hg
      rw [hsp.1, hsp.2]
  | timeoutReturn hm hc =>
    refine ⟨hi.sp_eq, ?_⟩
    intro v e hm2
    have hm3 : MainPhase.returnedMain 0 (some timeoutMsg)
        = MainPhase.returnedMain v e := hm2
    injection hm3 with h1 h2
    subst h1
    subst h2
    exact Or.inr ⟨rfl, rfl, hc⟩

lemma freachable_finv {slow : Int × GoErr} {s : FetchState}
    (h : FetchReachable slow s) : FInv slow s := by
  induction h with
  | refl => exact finv_init slow
  | tail _ hstep ih => exact finv_step hstep ih

lemma fLeak_stuck {s1 : FetchState}
    (hs : FetchStep fetchThirdPartyStuffWhichCanBeSlow fLeak s1) : False := by
  cases hs with
  | timerFires h => exact absurd h (by decide)
  | fetchCompletes h => exact absurd h (by decide)
  | rendezvous resp hg hm => exact absurd hm (by decide)
  | timeoutReturn hm hc => exact absurd hm (by decide)

lemma fLeak_forever {s1 : FetchState}
    (h : Relation.ReflTransGen (FetchStep fetchThirdPartyStuffWhichCanBeSlow) fLeak s1) :
    s1 = fLeak := by
  induction h with
  | refl => rfl
  | tail hsteps hstep ih => exact (fLeak_stuck (ih ▸ hstep)).elim

lemma fTimeout_reachable : FetchReachable fetchThirdPartyStuffWhichCanBeSlow fTimeout :=
  Relation.ReflTransGen.tail
    (Relation.ReflTransGen.tail Relation.ReflTransGen.refl
      (FetchStep.timerFires fetchInit rfl))
    (FetchStep.timeoutReturn ({ fetchInit with ctxDone := true }) rfl rfl)

lemma fLeak_reachable : FetchReachable fetchThirdPartyStuffWhichCanBeSlow fLeak :=
  Relation.ReflTransGen.tail fTimeout_reachable
    (FetchStep.fetchCompletes fTimeout rfl)

lemma canStep_of_step {limit : Nat} {scraper : ScrapeFn} {s s1 : ScrapeState}
    (hs : Step limit scraper s s1) : canStep limit s = true := by
  cases hs with
  | spawn h1 h2 => simp [canStep, h1]
  | beginWait h1 h2 => simp [canStep, h1]
  | cancel h => simp [canStep, h]
  | acquire i hlen hsp hph hsem =>
    simp only [canStep, Bool.or_eq_true, Bool.and_eq_true, List.any_eq_true]
    left; left; right
    exact ⟨⟨s.tasks.get ⟨i, hlen⟩, List.get_mem s.tasks i hlen, beq_iff_eq.mpr hph⟩,
      decide_eq_true hsem⟩
  | finish i hlen hph =>
    simp only [canStep, Bool.or_eq_true, Bool.and_eq_true, List.any_eq_true]
    left; right
    exact ⟨s.tasks.get ⟨i, hlen⟩, List.get_mem s.tasks i hlen, beq_iff_eq.mpr hph⟩
  | ret h1 h2 =>
    simp only [canStep, Bool.or_eq_true, Bool.and_eq_true, List.all_eq_true]
    right
    exact ⟨by simp [h1], fun t ht => by simp [h2 t ht]⟩

lemma stuck_of_canStep_false {limit : Nat} {scraper : ScrapeFn} {s s1 : ScrapeState}
    (hc : canStep limit s = false)
    (h : Relation.ReflTransGen (Step limit scraper) s s1) : s1 = s := by
  induction h with
  | refl => rfl
  | tail hsteps hstep ih =>
    exact absurd (canStep_of_step (ih ▸ hstep))
      (by rw [hc]; exact Bool.false_ne_true)

lemma t3_reachable : Reachable 1 cs0 ["a"] t3 :=
  Relation.ReflTransGen.tail
    (Relation.ReflTransGen.tail
      (Relation.ReflTransGen.tail Relation.ReflTransGen.refl
        (Step.spawn (initState ["a"]) rfl (by decide)))
      (Step.beginWait t1 rfl (by decide)))
    (Step.cancel t2 rfl)

lemma t3_reachable0 : Reachable 0 cs0 ["a"] t3 :=
  Relation.ReflTransGen.tail
    (Relation.ReflTransGen.tail
      (Relation.ReflTransGen.tail Relation.ReflTransGen.refl
        (Step.spawn (initState ["a"]) rfl (by decide)))
      (Step.beginWait t1 rfl (by decide)))
    (Step.cancel t2 rfl)

lemma t6_from_t3 : Relation.ReflTransGen (Step 1 cs0) t3 t6 :=
  Relation.ReflTransGen.tail
    (Relation.ReflTransGen.tail
      (Relation.ReflTransGen.tail Relation.ReflTransGen.refl
        (Step.acquire t3 0 (by decide) (by decide) (by decide) (by decide)))
      (Step.finish t4 0 (by decide) (by decide)))
    (Step.ret t5 rfl (by decide))

lemma a4_reachable : Reachable 1 cs0 ["a", "b"] a4 :=
  Relation.ReflTransGen.tail
    (Relation.ReflTransGen.tail
      (Relation.ReflTransGen.tail
        (Relation.ReflTransGen.tail Relation.ReflTransGen.refl
          (Step.spawn (initState ["a", "b"]) rfl (by decide)))
        (Step.spawn a1 rfl (by decide)))
      (Step.beginWait a2 rfl (by decide)))
    (Step.acquire a3 0 (by decide) (by decide) (by decide) (by decide))

lemma a8_reachable : Reachable 1 cs0 ["a", "b"] a8 :=
  Relation.ReflTransGen.tail
    (Relation.ReflTransGen.tail
      (Relation.ReflTransGen.tail
        (Relation.ReflTransGen.tail a4_reachable
          (Step.finish a4 0 (by decide) (by decide)))
        (Step.acquire a5 1 (by decide) (by decide) (by decide) (by decide)))
      (Step.finish a6 1 (by decide) (by decide)))
    (Step.ret a7 rfl (by decide))

lemma e4_reachable : Reachable 1 csErr ["a", "b"] a4 :=
  Relation.ReflTransGen.tail
    (Relation.ReflTransGen.tail
      (Relation.ReflTransGen.tail
        (Relation.ReflTransGen.tail Relation.ReflTransGen.refl
          (Step.spawn (initState ["a", "b"]) rfl (by decide)))
        (Step.spawn a1 rfl (by decide)))
      (Step.beginWait a2 rfl (by decide)))
    (Step.acquire a3 0 (by decide) (by decide) (by decide) (by decide))

lemma e8_reachable : Reachable 1 csErr ["a", "b"] e8 :=
  Relation.ReflTransGen.tail
    (Relation.ReflTransGen.tail
      (Relation.ReflTransGen.tail
        (Relation.ReflTransGen.tail e4_reachable
          (Step.finish a4 0 (by decide) (by decide)))
        (Step.acquire e5 1 (by decide) (by decide) (by decide) (by decide)))
      (Step.finish e6 1 (by decide) (by decide)))
    (Step.ret e7 rfl (by decide))

/-- C1: whenever `ConcurrentScraper.Scrape` returns, the returned collection
holds exactly one `(key, outcome)` entry per submitted key — its URL multiset
is a permutation of the submitted key list, so no key is dropped, duplicated
or double-reported, its length is the number of submitted keys — and the
return happens only after every task has finished, i.e. produced its one
outcome. -/
theorem scrape_returns_one_result_per_key (limit : Nat) (scraper : ScrapeFn)
    (keys : List String) (s : ScrapeState) (hr : Reachable limit scraper keys s)
    (hret : s.dispatcher = DispPhase.returned) :
    (s.results.map Result.URL).Perm keys ∧ s.results.length = keys.length ∧
    ∀ t ∈ s.tasks, t.phase = TaskPhase.done := by
  have hi := reachable_inv hr
  have hperm := returned_results_perm hi hret
  refine ⟨hperm, ?_, hi.ret_done hret⟩
  have hl := hperm.length_eq
  simpa using hl

/-- Witness for C1: a complete concrete schedule of a two-key batch at
capacity 1 ends with results whose URLs are a permutation of the keys. -/
theorem scrape_returns_one_result_per_key_witness :
    (a8.results.map Result.URL).Perm ["a", "b"] :=
  (scrape_returns_one_result_per_key 1 cs0 ["a", "b"] a8 a8_reachable rfl).1

/-- C2: with gate capacity `N ≥ 1`, in every reachable state of a batch run at
most `N` tasks are inside the executor, and every task still at the admission
gate has never entered the executor. -/
theorem scrape_concurrency_bounded (limit : Nat) (scraper : ScrapeFn)
    (keys : List String) (s : ScrapeState) (hN : 1 ≤ limit)
    (hr : Reachable limit scraper keys s) :
    countRunning s.tasks ≤ limit ∧ (s.tasks.all waitingOutsideExec) = true := by
  have hi := reachable_inv hr
  refine ⟨hi.run_le, ?_⟩
  simp only [List.all_eq_true]
  intro t ht
  by_cases hw : t.phase = TaskPhase.waitingAdmission
  · have hcf : t.calledExec = false := by
      cases hcc : t.calledExec
      · rfl
      · exact absurd hw ((hi.called_iff t ht).1 hcc)
    simp [waitingOutsideExec, hcf]
  · simp [waitingOutsideExec, hw]

/-- Witness for C2: in the mid-schedule state with task 0 inside the executor
and task 1 at the gate, the bound 1 holds and the waiting task has not entered
the executor. -/
theorem scrape_concurrency_bounded_witness :
    countRunning a4.tasks ≤ 1 ∧ (a4.tasks.all waitingOutsideExec) = true :=
  scrape_concurrency_bounded 1 cs0 ["a", "b"] a4 (Nat.le_refl 1) a4_reachable

/-- Counterexample to C3: a schedule in which the context is cancelled while
the only task is still at the admission gate (it has not started its fetch),
and the run nevertheless continues to a returned state in which that task DID
invoke the executor, and its outcome is the executor's success, not a
deadline-exceeded failure.  The dispatcher has no cancellation short-circuit:
`Worker` calls `scraper.Scrape` unconditionally. -/
theorem scrape_cancel_skip_cex :
    Reachable 1 cs0 ["a"] t3 ∧ t3.ctxDone = true ∧
    t3.tasks.map Task.phase = [TaskPhase.waitingAdmission] ∧
    Relation.ReflTransGen (Step 1 cs0) t3 t6 ∧
    t6.dispatcher = DispPhase.returned ∧
    t6.tasks.map Task.calledExec = [true] ∧
    t6.results = [{ URL := "a", Data := [9], Err := none }] :=
  ⟨t3_reachable, rfl, rfl, t6_from_t3, rfl, rfl, rfl⟩

/-- C3 (amended): tasks that have not started their fetch when cancellation
fires are not short-circuited; in every completed batch every task, those
admitted after cancellation included, has invoked the executor (with the
cancelled context), so any deadline-exceeded outcome must come from the
executor itself, not from the dispatcher. -/
theorem scrape_every_task_calls_executor (limit : Nat) (scraper : ScrapeFn)
    (keys : List String) (s : ScrapeState) (hr : Reachable limit scraper keys s)
    (hret : s.dispatcher = DispPhase.returned) :
    (s.tasks.all Task.calledExec) = true := by
  have hi := reachable_inv hr
  simp only [List.all_eq_true]
  intro t ht
  refine (hi.called_iff t ht).2 ?_
  rw [hi.ret_done hret t ht]
  exact fun hx => by cases hx

/-- Witness for the amended C3: in the completed one-key schedule that was
cancelled before admission, the task still invoked the executor. -/
theorem scrape_every_task_calls_executor_witness :
    (t6.tasks.all Task.calledExec) = true :=
  scrape_every_task_calls_executor 1 cs0 ["a"] t6
    (Relation.ReflTransGen.trans t3_reachable t6_from_t3) rfl

/-- C4: in `fetchUserData`, whenever the caller has returned a pair `(v, e)`,
either the background fetch won the race and `(v, e)` is exactly the
third-party outcome, unchanged, or the deadline fired first and
`(v, e) = (0, timeout error)`; moreover the timeout return happens without
waiting for the in-flight fetch — a schedule exists in which the caller has
returned the timeout failure while the background call is still running. -/
theorem fetchUserData_race_outcome :
    (∀ (slow : Int × GoErr) (v : Int) (e : GoErr) (s : FetchState),
        FetchReachable slow s → s.mainPh = MainPhase.returnedMain v e →
        (v, e) = slow ∨ (v = 0 ∧ e = some timeoutMsg ∧ s.ctxDone = true)) ∧
    FetchReachable fetchThirdPartyStuffWhichCanBeSlow fTimeout ∧
    fTimeout.mainPh = MainPhase.returnedMain 0 (some timeoutMsg) ∧
    fTimeout.gor = GorPhase.fetching := by
  refine ⟨?_, fTimeout_reachable, rfl, rfl⟩
  intro slow v e s hr hm
  exact (freachable_finv hr).main_ret v e hm

/-- Witness for C4: the race dichotomy applied to the concrete timed-out
schedule (the second disjunct holds there). -/
theorem fetchUserData_race_outcome_witness :
    ((0 : Int), (some timeoutMsg : GoErr)) = fetchThirdPartyStuffWhichCanBeSlow ∨
    ((0 : Int) = 0 ∧ (some timeoutMsg : GoErr) = some timeoutMsg ∧
      fTimeout.ctxDone = true) :=
  fetchUserData_race_outcome.1 fetchThirdPartyStuffWhichCanBeSlow 0 (some timeoutMsg)
    fTimeout fetchUserData_race_outcome.2.1 fetchUserData_race_outcome.2.2.1

/-- C5 is false of the code (a bug): `respch` is unbuffered
(`make(chan Response)`, capacity 0) and after the timeout branch returns
nobody ever receives from it, so the abandoned goroutine's send blocks
forever: from the reachable post-timeout state in which the goroutine holds
its computed `Response` at the send, no continuation of the execution ever
completes the send. -/
theorem respch_send_blocks_forever :
    respchCapacity = 0 ∧
    FetchReachable fetchThirdPartyStuffWhichCanBeSlow fLeak ∧
    fLeak.gor = GorPhase.sendPending { value := 666, err := none } ∧
    ∀ s1 : FetchState,
      Relation.ReflTransGen (FetchStep fetchThirdPartyStuffWhichCanBeSlow) fLeak s1 →
      s1.gor ≠ GorPhase.sentResp := by
  refine ⟨rfl, fLeak_reachable, rfl, ?_⟩
  intro s1 h
  rw [fLeak_forever h]
  exact fun hx => by cases hx

/-- Witness for C5: the blocked state itself never completes its send. -/
theorem respch_send_blocks_forever_witness : fLeak.gor ≠ GorPhase.sentResp :=
  respch_send_blocks_forever.2.2.2 fLeak Relation.ReflTransGen.refl

/-- Counterexample to C6: the code has no `SubmissionError` and validates
nothing.  `NewConcurrentScraper` stores limit `0` unchanged, and the one-key
batch at capacity 0 reaches a state that is not returned and from which no
step is enabled — the call hangs forever instead of failing immediately —
while the task never invoked the executor. -/
theorem scrape_zero_limit_cex :
    (NewConcurrentScraper cs0 0).NumWorkers = 0 ∧
    Reachable 0 cs0 ["a"] t3 ∧
    t3.dispatcher ≠ DispPhase.returned ∧
    canStep 0 t3 = false ∧
    t3.tasks.map Task.calledExec = [false] :=
  ⟨rfl, t3_reachable0, by decide, by decide, rfl⟩

/-- C6 (amended): `NewConcurrentScraper` performs no validation and the code
defines no `SubmissionError`; with limit `0` (an invalid configuration,
`limit < 1`) and a nonempty key list, `Scrape` never returns — every task
blocks forever at the admission gate — and no executor call is ever made, but
no error is surfaced either. -/
theorem scrape_zero_limit_never_returns (scraper : ScrapeFn) (keys : List String)
    (s : ScrapeState) (hk : keys ≠ []) (hr : Reachable 0 scraper keys s) :
    s.dispatcher ≠ DispPhase.returned ∧ (s.tasks.all neverCalled) = true := by
  have hi := reachable_inv hr
  have hwa := hi.zero_wa rfl
  constructor
  · intro hret
    have hall := hi.ret_done hret
    cases htl : s.tasks with
    | nil =>
      exact hk (by rw [← hi.keys_eq, htl]; rfl)
    | cons t ts =>
      have h1 := hwa t (by rw [htl]; exact List.mem_cons_self t ts)
      have h2 := hall t (by rw [htl]; exact List.mem_cons_self t ts)
      rw [h1] at h2
      cases h2
  · simp only [List.all_eq_true]
    intro t ht
    have h1 := hwa t ht
    have hcf : t.calledExec = false := by
      cases hcc : t.calledExec
      · rfl
      · exact absurd h1 ((hi.called_iff t ht).1 hcc)
    simp [neverCalled, hcf]

/-- Witness for the amended C6: the concrete stuck state of the capacity-0
one-key batch is not returned and its task never called the executor. -/
theorem scrape_zero_limit_never_returns_witness :
    t3.dispatcher ≠ DispPhase.returned ∧ (t3.tasks.all neverCalled) = true :=
  scrape_zero_limit_never_returns cs0 ["a"] t3 (List.cons_ne_nil "a" []) t3_reachable0

/-- C7: a failing task never aborts the batch: whenever the batch returns, the
result collection is still complete (one entry per key), and every entry's
data and error are exactly what the executor produced for that URL — failures
are captured in the `Err` field of that task's `Result` rather than stopping
the dispatcher. -/
theorem scrape_task_errors_captured (limit : Nat) (scraper : ScrapeFn)
    (keys : List String) (s : ScrapeState) (hr : Reachable limit scraper keys s)
    (hret : s.dispatcher = DispPhase.returned) :
    (s.results.map Result.URL).Perm keys ∧
    (∀ r ∈ s.results, ∃ b : Bool,
      r.Data = (scraper r.URL b).1 ∧ r.Err = (scraper r.URL b).2) := by
  have hi := reachable_inv hr
  exact ⟨returned_results_perm hi hret, hi.res_src⟩

/-- Witness for C7: a batch against an executor failing on key `a` still
completes with one result per key. -/
theorem scrape_task_errors_captured_witness :
    (e8.results.map Result.URL).Perm ["a", "b"] :=
  (scrape_task_errors_captured 1 csErr ["a", "b"] e8 e8_reachable rfl).1

/-- C9: `fetchUserData` is independent of its `userID` argument: under the
same race outcome (same context behaviour), any two user ids produce the same
`(value, error)` pair, since the parameter is never read after entry. -/
theorem fetchUserData_independent_of_userID (u1 u2 : Int) (b : Bool) :
    fetchUserData u1 b = fetchUserData u2 b :=
  rfl

/-- C10: on the empty key list `Scrape` terminates without blocking — the
returned state is reachable for every gate capacity — its result collection is
empty, and the executor is never invoked (there is no task at all in any
reachable state of the empty batch). -/
theorem scrape_empty_keys (limit : Nat) (scraper : ScrapeFn) :
    Reachable limit scraper [] emptyFinal ∧
    emptyFinal.dispatcher = DispPhase.returned ∧
    (∀ s : ScrapeState, Reachable limit scraper [] s →
      s.results = [] ∧ s.tasks = []) := by
  refine ⟨?_, rfl, ?_⟩
  · exact Relation.ReflTransGen.tail
      (Relation.ReflTransGen.tail Relation.ReflTransGen.refl
        (Step.beginWait (initState []) rfl rfl))
      (Step.ret ({ initState [] with dispatcher := DispPhase.waiting }) rfl (by decide))
  · intro s hr
    have hi := reachable_inv hr
    have htas : s.tasks = [] := List.map_eq_nil_iff.mp hi.keys_eq
    refine ⟨?_, htas⟩
    refine results_nil_of_counts s.results (fun u => ?_)
    rw [hi.res_count u, htas]
    rfl

/-- Witness for C10: the empty batch's final state, at capacity 0, has empty
results and no tasks. -/
theorem scrape_empty_keys_witness :
    emptyFinal.results = [] ∧ emptyFinal.tasks = [] :=
  (scrape_empty_keys 0 cs0).2.2 emptyFinal (scrape_empty_keys 0 cs0).1

end Learning

/-- C8: `updateEmail` sets exactly the `email` field: afterwards `email` is
the new value, `name` and `age` are unchanged, and the `Email` accessor
returns the new value. -/
theorem MainGo.updateEmail_frame (u : MainGo.User) (e : String) :
    (u.updateEmail e).email = e ∧ (u.updateEmail e).name = u.name ∧
    (u.updateEmail e).age = u.age ∧ (u.updateEmail e).Email = e :=
  ⟨rfl, rfl, rfl, rfl⟩
